import Mathlib

/-!
Verification development for the Floatplane downloader core
(`src/lib/Video.ts` and `src/lib/prompts/prompts.ts`), shallowly embedded in
Lean. Strings are `String` (lists of characters); JavaScript numbers that
hold byte counts are `Int` with `-1` as the "file absent" sentinel; the
persisted `expectedSize` is `Option Nat` (`none` models `undefined`); the
filesystem is a partial map from paths to byte sizes.
-/

/-- Boolean prefix test on character lists: `isPrefixB p s` is true when the
characters of `p` occur at the start of `s`.  Models a JS regex whose pattern
is plain literal text matching at the current scan position. -/
def isPrefixB : List Char → List Char → Bool
  | [], _ => true
  | _ :: _, [] => false
  | a :: as, b :: bs => a == b && isPrefixB as bs

/-- The backquote character (code point 96). -/
def backquoteChar : Char := Char.ofNat 96

/-- The apostrophe character (code point 39). -/
def apostropheChar : Char := Char.ofNat 39

/-- ECMAScript `GetSubstitution` for a string replacement value and a
capture-group-free pattern: `$$` inserts `$`, `$&` the matched text,
`$`+backquote the part of the original string before the match, `$`+apostrophe
the part after it; any other `$` sequence (including `$1`, there being no
capture groups) is literal. -/
def getSubstitution (matched before after : List Char) : List Char → List Char
  | [] => []
  | c :: rest =>
    if c = '$' then
      match rest with
      | [] => ['$']
      | d :: rest2 =>
        if d = '$' then '$' :: getSubstitution matched before after rest2
        else if d = '&' then matched ++ getSubstitution matched before after rest2
        else if d = backquoteChar then before ++ getSubstitution matched before after rest2
        else if d = apostropheChar then after ++ getSubstitution matched before after rest2
        else '$' :: d :: getSubstitution matched before after rest2
    else c :: getSubstitution matched before after rest

/-- Scanner for global literal replacement over the original string `orig`.
The first `Nat` is the index of the scan position in `orig`, the second
counts characters of a just-matched occurrence still to be skipped (the scan
resumes after the matched text, so the inserted substitution is never
rescanned and occurrences never overlap).  Each match inserts the
`getSubstitution` expansion of the replacement value, whose `before`/`after`
parts are taken from the original string as in ECMAScript. -/
def replaceAllGo (pat rep orig : List Char) : Nat → Nat → List Char → List Char
  | _, _, [] => []
  | i, Nat.succ k, _ :: rest => replaceAllGo pat rep orig (i + 1) k rest
  | i, 0, c :: rest =>
    if isPrefixB pat (c :: rest) then
      getSubstitution pat (orig.take i) (orig.drop (i + pat.length)) rep
        ++ replaceAllGo pat rep orig (i + 1) (pat.length - 1) rest
    else c :: replaceAllGo pat rep orig (i + 1) 0 rest

/-- `String.prototype.replace(new RegExp(pat, 'g'), rep)` for a pattern made
of literal characters: a single left-to-right scan replacing every
non-overlapping occurrence, with `$`-escapes of `rep` expanded per match. -/
def replaceAllList (pat rep s : List Char) : List Char := replaceAllGo pat rep s 0 0 s

/-- Scanner for first-occurrence replacement, tracking the index in the
original string for the `$`-escape expansion. -/
def replaceFirstGo (pat rep orig : List Char) : Nat → List Char → List Char
  | _, [] => []
  | i, c :: rest =>
    if isPrefixB pat (c :: rest) then
      getSubstitution pat (orig.take i) (orig.drop (i + pat.length)) rep
        ++ rest.drop (pat.length - 1)
    else c :: replaceFirstGo pat rep orig (i + 1) rest

/-- `String.prototype.replace(pat, rep)` with a plain string pattern:
JS replaces only the first occurrence in that case. -/
def replaceFirstList (pat rep s : List Char) : List Char := replaceFirstGo pat rep s 0 s

/-- Whether the literal pattern `pat` occurs anywhere in `s`. -/
def occursList (pat : List Char) : List Char → Bool
  | [] => isPrefixB pat []
  | c :: rest => isPrefixB pat (c :: rest) || occursList pat rest

/-- String wrapper for `replaceAllList`. -/
def replaceAll (s pat rep : String) : String := ⟨replaceAllList pat.data rep.data s.data⟩

/-- String wrapper for `replaceFirstList`. -/
def replaceFirst (s pat rep : String) : String := ⟨replaceFirstList pat.data rep.data s.data⟩

/-- String wrapper for `occursList`. -/
def occursStr (pat s : String) : Bool := occursList pat.data s.data

/-- `nPad` from `@inrixia/helpers/math.js`: zero-pad a number to width 2. -/
def nPad (n : Nat) : String := if n < 10 then "0" ++ toString n else toString n

/-- Model of the external `sanitize-filename` dependency: removes characters
that are illegal in file names (path separators, reserved punctuation and
control characters).  No claim depends on its exact behaviour. -/
def sanitize (s : String) : String :=
  ⟨s.data.filter fun c =>
    !(c == '/' || c == '\\' || c == '?' || c == '<' || c == '>' ||
      c == ':' || c == '*' || c == '|' || c == '"' || decide (c.toNat < 32))⟩

/-- The on-disk state: maps a path to the byte size of the file stored there,
`none` when no file exists at that path. -/
abbrev FileSystem := String → Option Nat

/-- The configuration surface consumed by `Video.ts` (`settings` object). -/
structure Settings where
  filePathFormatting : String
  considerAllNonPartialDownloaded : Bool
  artworkSuffix : String
  downloadArtwork : Bool
  saveNfo : Bool
  downloadEdge : String
deriving DecidableEq

/-- A `Video` as built by the constructor in `Video.ts`.  The release date is
carried as the already-extracted local calendar fields (`month` stores
`getMonth() + 1` as used by the formatter); `expectedSize` models the value
persisted through the channel's video database, `none` for `undefined`. -/
structure Video where
  guid : String
  title : String
  channelTitle : String
  year : Nat
  month : Nat
  day : Nat
  hour : Nat
  minute : Nat
  second : Nat
  thumbnail : Option String
  videoAttachments : List String
  expectedSize : Option Nat
deriving DecidableEq

/-- The title transformation applied for `%videoTitle%`:
`title.replace(/ - /g, ' ').replace(/\//g, ' ').replace(/\\/g, ' ')`. -/
def collapseTitle (t : String) : String :=
  replaceAll (replaceAll (replaceAll t " - " " ") "/" " ") "\\" " "

/-- The `formatLookup` table of `formatString`, in `Object.entries` order
(insertion order of the object literal). -/
def formatLookup (v : Video) : List (String × String) :=
  [("%channelTitle%", v.channelTitle),
   ("%year%", toString v.year),
   ("%month%", nPad v.month),
   ("%day%", nPad v.day),
   ("%hour%", nPad v.hour),
   ("%minute%", nPad v.minute),
   ("%second%", nPad v.second),
   ("%videoTitle%", collapseTitle v.title)]

/-- `formatString`: for each table entry, globally replace the placeholder in
the working string, in table order. -/
def formatString (v : Video) (t : String) : String :=
  (formatLookup v).foldl (fun s kv => replaceAll s kv.1 kv.2) t

/-- The placeholder names recognised by `formatString`. -/
def placeholderNames : List String :=
  ["%channelTitle%", "%year%", "%month%", "%day%", "%hour%", "%minute%", "%second%", "%videoTitle%"]

/-- True when no recognised placeholder occurs in the template. -/
def noRecognizedPlaceholder (t : String) : Bool :=
  placeholderNames.all fun p => !(occursStr p t)

/-- Split a character list at every occurrence of the separator, JS
`String.prototype.split` style: `"".split` gives one empty segment, and
leading/trailing separators give empty segments. -/
def splitOnChar (sep : Char) : List Char → List (List Char)
  | [] => [[]]
  | c :: rest =>
    match splitOnChar sep rest with
    | [] => if c == sep then [[], []] else [[c]]
    | h :: t => if c == sep then [] :: h :: t else (c :: h) :: t

/-- JS `fullPath.split('/')`. -/
def splitSlash (s : String) : List String := (splitOnChar '/' s.data).map String.mk

/-- Join a list of strings with `/` between them, JS `Array.prototype.join('/')`. -/
def joinSlash : List String → String
  | [] => ""
  | [a] => a
  | a :: rest => a ++ "/" ++ joinSlash rest

/-- `fullPath`: the naming template with all placeholders substituted. -/
def fullPath (v : Video) (s : Settings) : String := formatString v s.filePathFormatting

/-- `folderPath`: all `/`-segments of `fullPath` but the last, re-joined. -/
def folderPath (v : Video) (s : Settings) : String :=
  joinSlash (splitSlash (fullPath v s)).dropLast

/-- `filePath`: folder path, a `/`, then the sanitized last segment. -/
def filePath (v : Video) (s : Settings) : String :=
  folderPath v s ++ "/" ++ sanitize ((splitSlash (fullPath v s)).getLastD "")

/-- `multiPartSuffix`: empty for a single video attachment, otherwise
`" - Part "` followed by the 1-based part number. -/
def multiPartSuffix (v : Video) (i : Nat) : String :=
  if v.videoAttachments.length ≠ 1 then " - Part " ++ toString (i + 1) else ""

/-- Full on-disk path of attachment part `i` with the given extension. -/
def partFilePath (v : Video) (s : Settings) (i : Nat) (ext : String) : String :=
  filePath v s ++ multiPartSuffix v i ++ "." ++ ext

/-- `Video.getFileBytes`: `fs.stat(path).size`, with the error path mapped to
the sentinel size `-1`. -/
def getFileBytes (st : FileSystem) (path : String) : Int :=
  match st path with
  | some n => (n : Int)
  | none => -1

/-- The accumulator loop of `fileBytes`: `for (const i in videoAttachments)
bytes += getFileBytes(filePath + multiPartSuffix(i) + "." + extension)`. -/
def fileBytesGo (v : Video) (s : Settings) (st : FileSystem) (ext : String) :
    Nat → List String → Int
  | _, [] => 0
  | i, _ :: rest => getFileBytes st (partFilePath v s i ext) + fileBytesGo v s st ext (i + 1) rest

/-- `fileBytes(extension)`: the loop started at index 0 over the attachment
list with accumulator 0. -/
def fileBytes (v : Video) (s : Settings) (st : FileSystem) (ext : String) : Int :=
  fileBytesGo v s st ext 0 v.videoAttachments

/-- JS strict equality `x === expectedSize` between a number and the possibly
`undefined` persisted size: `undefined` is never equal to a number. -/
def jsEqExpected (x : Int) (e : Option Nat) : Bool :=
  match e with
  | some n => x == (n : Int)
  | none => false

/-- `isMuxed()`: with `considerAllNonPartialDownloaded` set, true when the
summed `.mp4` bytes differ from `-1`; otherwise true when they strictly equal
`expectedSize`. -/
def isMuxed (v : Video) (s : Settings) (st : FileSystem) : Bool :=
  let fb := fileBytes v s st "mp4"
  if s.considerAllNonPartialDownloaded then fb != -1
  else jsEqExpected fb v.expectedSize

/-- `isDownloaded()`: muxed already, or the summed `.partial` bytes strictly
equal `expectedSize`. -/
def isDownloaded (v : Video) (s : Settings) (st : FileSystem) : Bool :=
  isMuxed v s st || jsEqExpected (fileBytes v s st "partial") v.expectedSize

/-- Byte size of an optional file as JS sees it: `-1` when absent. -/
def sizeInt : Option Nat → Int
  | some n => (n : Int)
  | none => -1

/-- The observed sizes of the per-part files for a given extension, in part
order (`none` = file absent). -/
def partSizes (v : Video) (s : Settings) (st : FileSystem) (ext : String) : List (Option Nat) :=
  (List.range v.videoAttachments.length).map fun i => st (partFilePath v s i ext)

/-- Declarative form of the summed per-part byte counts (each absent part
contributing the sentinel `-1`). -/
def partBytesSum (v : Video) (s : Settings) (st : FileSystem) (ext : String) : Int :=
  ((partSizes v s st ext).map sizeInt).sum

/-- Sum of the byte counts of the per-part files that actually exist. -/
def existingBytesSum (v : Video) (s : Settings) (st : FileSystem) (ext : String) : Int :=
  ((partSizes v s st ext).map fun o => ((o.getD 0 : Nat) : Int)).sum

/-- Number of attachment parts whose file for the given extension is absent. -/
def missingPartCount (v : Video) (s : Settings) (st : FileSystem) (ext : String) : Nat :=
  ((partSizes v s st ext).filter Option.isNone).length

/-- Whether every per-part `.mp4` file exists (observed size is not the
absent sentinel). -/
def allMp4PartsExist (v : Video) (s : Settings) (st : FileSystem) : Bool :=
  (List.range v.videoAttachments.length).all fun i =>
    getFileBytes st (partFilePath v s i "mp4") != -1

lemma getFileBytes_eq_sizeInt (st : FileSystem) (p : String) :
    getFileBytes st p = sizeInt (st p) := by
  simp only [getFileBytes, sizeInt]

lemma fileBytesGo_eq_sum (v : Video) (s : Settings) (st : FileSystem) (ext : String) :
    ∀ (l : List String) (k : Nat),
      fileBytesGo v s st ext k l =
        ((List.range l.length).map fun j => sizeInt (st (partFilePath v s (k + j) ext))).sum := by
  intro l
  induction l with
  | nil => intro k; simp [fileBytesGo]
  | cons a rest ih =>
    intro k
    simp only [fileBytesGo, List.length_cons, List.range_succ_eq_map, List.map_cons,
      List.map_map, List.sum_cons, Nat.add_zero, ih (k + 1), getFileBytes_eq_sizeInt]
    have h2 : List.map ((fun j => sizeInt (st (partFilePath v s (k + j) ext))) ∘ Nat.succ)
          (List.range rest.length)
        = List.map (fun j => sizeInt (st (partFilePath v s (k + 1 + j) ext)))
          (List.range rest.length) := by
      apply List.map_congr_left
      intro j _
      simp only [Function.comp_apply]
      have h3 : k + Nat.succ j = k + 1 + j := by omega
      rw [h3]
    rw [h2]

/-- The `fileBytes` loop computes the declarative per-part sum. -/
lemma fileBytes_eq_partBytesSum (v : Video) (s : Settings) (st : FileSystem) (ext : String) :
    fileBytes v s st ext = partBytesSum v s st ext := by
  unfold fileBytes partBytesSum partSizes
  rw [fileBytesGo_eq_sum, List.map_map]
  refine congrArg List.sum (List.map_congr_left ?_)
  intro j _
  simp only [Function.comp_apply, Nat.zero_add]

lemma sum_sizeInt_eq (l : List (Option Nat)) :
    (l.map sizeInt).sum =
      (l.map fun o => ((o.getD 0 : Nat) : Int)).sum - (l.filter Option.isNone).length := by
  induction l with
  | nil => simp
  | cons o rest ih =>
    cases o with
    | none => simp [sizeInt, ih]; omega
    | some n => simp [sizeInt, ih]; omega

/-- A sample settings object: template `"video"` (no placeholders), all
optional features off. -/
def exSettings : Settings :=
  { filePathFormatting := "video", considerAllNonPartialDownloaded := false,
    artworkSuffix := "-art", downloadArtwork := false, saveNfo := false, downloadEdge := "" }

/-- `exSettings` with `considerAllNonPartialDownloaded` switched on. -/
def exSettingsAll : Settings := { exSettings with considerAllNonPartialDownloaded := true }

/-- A sample video with the given attachment list and persisted size. -/
def mkVideo (atts : List String) (es : Option Nat) : Video :=
  { guid := "g", title := "T", channelTitle := "C", year := 2024, month := 1, day := 2,
    hour := 3, minute := 4, second := 5, thumbnail := none, videoAttachments := atts,
    expectedSize := es }

/-- A filesystem with no files at all. -/
def fsEmpty : FileSystem := fun _ => none

/-- A filesystem holding exactly one 500-byte `.partial` file for the
single-attachment sample video. -/
def fs500 : FileSystem := fun p => if p = "/video.partial" then some 500 else none

/-- A filesystem holding a 100-byte `.partial` file for part 1 of a two-part
sample video, with part 2 absent. -/
def fsPart1 : FileSystem := fun p => if p = "/video - Part 1.partial" then some 100 else none

/-- C1: `isDownloaded()` is true exactly when `isMuxed()` is true or the
summed `.partial` byte counts strictly equal the persisted `expectedSize`;
in particular, with `expectedSize` unset and a lone 500-byte `.partial` file
on disk (no final container), `isDownloaded()` is false. -/
theorem isDownloaded_iff_muxed_or_partial_sum :
    (∀ (v : Video) (s : Settings) (st : FileSystem),
      isDownloaded v s st
        = (isMuxed v s st || jsEqExpected (partBytesSum v s st "partial") v.expectedSize)) ∧
    isDownloaded (mkVideo ["a"] none) exSettings fs500 = false := by
  constructor
  · intro v s st
    unfold isDownloaded
    rw [fileBytes_eq_partBytesSum]
  · decide

/-- C2 counterexample: with `considerAllNonPartialDownloaded` set and a
two-part video whose `.mp4` files are both absent, the summed sizes are
`-2 ≠ -1`, so `isMuxed()` returns true even though no per-part final
container exists — refuting "true iff every per-part `.mp4` exists". -/
theorem isMuxed_all_flag_counterexample :
    isMuxed (mkVideo ["a", "b"] none) exSettingsAll fsEmpty = true ∧
    allMp4PartsExist (mkVideo ["a", "b"] none) exSettingsAll fsEmpty = false := by
  decide

/-- C2 (amended): when the flag is set, `isMuxed()` is true exactly when the
summed `.mp4` byte counts (each absent part contributing the sentinel `-1`)
differ from `-1` — not when every part exists; when the flag is clear, it is
true exactly when that sum strictly equals `expectedSize`. -/
theorem isMuxed_characterization :
    ∀ (v : Video) (s : Settings) (st : FileSystem),
      (s.considerAllNonPartialDownloaded = true →
        isMuxed v s st = (partBytesSum v s st "mp4" != -1)) ∧
      (s.considerAllNonPartialDownloaded = false →
        isMuxed v s st = jsEqExpected (partBytesSum v s st "mp4") v.expectedSize) := by
  intro v s st
  simp only [isMuxed, fileBytes_eq_partBytesSum]
  constructor <;> intro h <;> simp [h]

/-- Witness for C2 (amended), instantiated with the flag set. -/
theorem isMuxed_characterization_witness :
    isMuxed (mkVideo ["a", "b"] none) exSettingsAll fsEmpty
      = (partBytesSum (mkVideo ["a", "b"] none) exSettingsAll fsEmpty "mp4" != -1) :=
  (isMuxed_characterization _ _ _).1 rfl

/-- C4 counterexample: a two-part video with a 100-byte `.partial` for part 1
and part 2 absent: `fileBytes` returns `99`, not the `100` the claim's
"missing file contributes 0 effectively" would require. -/
theorem fileBytes_missing_part_counterexample :
    fileBytes (mkVideo ["a", "b"] none) exSettings fsPart1 "partial" = 99 ∧
    existingBytesSum (mkVideo ["a", "b"] none) exSettings fsPart1 "partial" = 100 := by
  decide

/-- C4 (amended): `fileBytes(extension)` equals the sum of the byte sizes of
the per-part files that exist minus the number of absent parts — each absent
part contributes the sentinel `-1` to the sum rather than 0. -/
theorem fileBytes_eq_sum_minus_missing :
    ∀ (v : Video) (s : Settings) (st : FileSystem) (ext : String),
      fileBytes v s st ext = existingBytesSum v s st ext - missingPartCount v s st ext := by
  intro v s st ext
  rw [fileBytes_eq_partBytesSum]
  unfold partBytesSum existingBytesSum missingPartCount
  exact sum_sizeInt_eq _

/-- C5: the per-part suffix is empty exactly when the video has a single
video attachment; otherwise it is `" - Part "` followed by the 1-based part
number. -/
theorem multiPartSuffix_empty_iff_single :
    ∀ (v : Video) (i : Nat),
      (multiPartSuffix v i = "" ↔ v.videoAttachments.length = 1) ∧
      (v.videoAttachments.length ≠ 1 → multiPartSuffix v i = " - Part " ++ toString (i + 1)) := by
  intro v i
  by_cases h : v.videoAttachments.length = 1
  · simp [multiPartSuffix, h]
  · simp [multiPartSuffix, h]
    intro heq
    rw [String.congr_append] at heq
    have hd := congrArg String.data heq
    have h8 : " - Part ".data = [] := (List.append_eq_nil.mp hd).1
    exact absurd h8 (by decide)

/-- Witness for C5 at a two-part and a one-part video. -/
theorem multiPartSuffix_empty_iff_single_witness :
    multiPartSuffix (mkVideo ["a", "b"] none) 0 = " - Part " ++ toString (0 + 1) ∧
    multiPartSuffix (mkVideo ["a"] none) 0 = "" :=
  ⟨(multiPartSuffix_empty_iff_single (mkVideo ["a", "b"] none) 0).2 (by decide),
   (multiPartSuffix_empty_iff_single (mkVideo ["a"] none) 0).1.mpr (by decide)⟩

/-- True when the string's characters include no `$`, so its
`GetSubstitution` expansion is the string itself. -/
def dollarFreeList (l : List Char) : Bool := l.all fun c => c != '$'

/-- String form of `dollarFreeList`. -/
def dollarFree (s : String) : Bool := dollarFreeList s.data

/-- Greedy splitter companion of `replaceAllGo`: the same scan, collecting
the text between consecutive pattern occurrences instead of substituting. -/
def splitOnPatGo (pat : List Char) : Nat → List Char → List (List Char)
  | _, [] => [[]]
  | Nat.succ k, _ :: rest => splitOnPatGo pat k rest
  | 0, c :: rest =>
    if isPrefixB pat (c :: rest) then [] :: splitOnPatGo pat (pat.length - 1) rest
    else
      match splitOnPatGo pat 0 rest with
      | [] => [[c]]
      | h :: t => (c :: h) :: t

/-- The segments of `s` between consecutive (non-overlapping, leftmost)
occurrences of `pat`: one more segment than there are occurrences. -/
def splitOnPat (pat s : List Char) : List (List Char) := splitOnPatGo pat 0 s

/-- Interleave the separator between the segments. -/
def joinWith (sep : List Char) : List (List Char) → List Char
  | [] => []
  | [a] => a
  | a :: b :: rest => a ++ sep ++ joinWith sep (b :: rest)

/-- Specification-side substitution of one placeholder: split the template at
every occurrence of the placeholder and join with the value, i.e. every
occurrence is replaced, and the value is inserted verbatim. -/
def substPlaceholder (s pat val : String) : String :=
  ⟨joinWith val.data (splitOnPat pat.data s.data)⟩

/-- Specification-side `formatString`: substitute every occurrence of each
recognised placeholder with its value, sequentially in table order. -/
def formatStringSubstituted (v : Video) (t : String) : String :=
  (formatLookup v).foldl (fun s kv => substPlaceholder s kv.1 kv.2) t

/-- A sample single-attachment video carrying the given title. -/
def titledVideo (title : String) : Video := { mkVideo ["a"] none with title := title }

lemma getSubstitution_dollarFree (matched before after : List Char) :
    ∀ (rep : List Char), dollarFreeList rep = true →
      getSubstitution matched before after rep = rep := by
  intro rep
  induction rep with
  | nil => intro _; rfl
  | cons c rest ih =>
    intro h
    simp only [dollarFreeList, List.all_cons, Bool.and_eq_true] at h
    have hc : ¬(c = '$') := by simpa using h.1
    rw [getSubstitution.eq_def]
    simp only [hc, if_false]
    rw [ih h.2]

lemma splitOnPatGo_ne_nil (pat : List Char) :
    ∀ (s : List Char) (k : Nat), splitOnPatGo pat k s ≠ [] := by
  intro s
  induction s with
  | nil => intro k; simp [splitOnPatGo]
  | cons c rest ih =>
    intro k
    cases k with
    | succ k2 => simpa only [splitOnPatGo] using ih k2
    | zero =>
      simp only [splitOnPatGo]
      by_cases hm : isPrefixB pat (c :: rest) = true
      · rw [if_pos hm]
        simp
      · rw [if_neg hm]
        cases hsp : splitOnPatGo pat 0 rest <;> simp

lemma joinWith_cons_head (sep : List Char) (c : Char) (h : List Char) (t : List (List Char)) :
    joinWith sep ((c :: h) :: t) = c :: joinWith sep (h :: t) := by
  cases t <;> simp [joinWith]

lemma replaceAllGo_eq_joinWith (pat rep orig : List Char) (hrep : dollarFreeList rep = true) :
    ∀ (s : List Char) (k i : Nat),
      replaceAllGo pat rep orig i k s = joinWith rep (splitOnPatGo pat k s) := by
  intro s
  induction s with
  | nil => intro k i; simp [replaceAllGo, splitOnPatGo, joinWith]
  | cons c rest ih =>
    intro k i
    cases k with
    | succ k2 =>
      simp only [replaceAllGo, splitOnPatGo]
      exact ih k2 (i + 1)
    | zero =>
      by_cases hm : isPrefixB pat (c :: rest) = true
      · simp only [replaceAllGo, splitOnPatGo]
        rw [if_pos hm, if_pos hm, getSubstitution_dollarFree _ _ _ _ hrep,
          ih (pat.length - 1) (i + 1)]
        obtain ⟨x, xs, hx⟩ :=
          List.exists_cons_of_ne_nil (splitOnPatGo_ne_nil pat rest (pat.length - 1))
        rw [hx]
        simp [joinWith]
      · simp only [replaceAllGo, splitOnPatGo]
        rw [if_neg hm, if_neg hm, ih 0 (i + 1)]
        obtain ⟨x, xs, hx⟩ := List.exists_cons_of_ne_nil (splitOnPatGo_ne_nil pat rest 0)
        rw [hx, joinWith_cons_head]

lemma replaceAll_eq_substPlaceholder (s pat val : String) (h : dollarFree val = true) :
    replaceAll s pat val = substPlaceholder s pat val := by
  unfold replaceAll replaceAllList substPlaceholder splitOnPat
  rw [replaceAllGo_eq_joinWith pat.data val.data s.data h s.data 0 0]

lemma replaceAllGo_not_occurs (pat rep orig : List Char) :
    ∀ (s : List Char) (i : Nat), occursList pat s = false →
      replaceAllGo pat rep orig i 0 s = s := by
  intro s
  induction s with
  | nil => intro i _; rfl
  | cons c rest ih =>
    intro i h
    simp only [occursList, Bool.or_eq_false_iff] at h
    simp only [replaceAllGo]
    rw [if_neg (by simp [h.1]), ih (i + 1) h.2]

lemma replaceAll_not_occurs (pat t rep : String) (h : occursStr pat t = false) :
    replaceAll t pat rep = t := by
  unfold replaceAll replaceAllList
  rw [replaceAllGo_not_occurs pat.data rep.data t.data t.data 0 h]

/-- C6 counterexample: with the title `$&`, the real `formatString` expands
the `$&` escape in the replacement value and reinserts the matched
placeholder: the template `%videoTitle%` formats to `%videoTitle%`, not to
the collapsed title `$&` the claim requires. -/
theorem formatString_dollar_counterexample :
    collapseTitle "$&" = "$&" ∧
    formatString (titledVideo "$&") "%videoTitle%" = "%videoTitle%" ∧
    ("%videoTitle%" : String) ≠ "$&" := by
  decide

/-- C6 (amended): `formatString` leaves a template without recognised
placeholders verbatim (unknown `%...%` tokens included); whenever every
replacement value of the lookup table is `$`-free, it equals the
specification-side substitution that, for each recognised placeholder in
table order, replaces every occurrence with its value; and whenever the
collapsed title is `$`-free, `%videoTitle%` templates receive the collapsed
title at every occurrence.  (Values containing `$` are expanded per
ECMAScript GetSubstitution instead of inserted verbatim — the
counterexample.) -/
theorem formatString_semantics :
    ∀ (v : Video) (t : String),
      (noRecognizedPlaceholder t = true → formatString v t = t) ∧
      ((formatLookup v).all (fun kv => dollarFree kv.2) = true →
        formatString v t = formatStringSubstituted v t) ∧
      (dollarFree (collapseTitle v.title) = true →
        formatString v "%videoTitle%" = collapseTitle v.title ∧
        formatString v "%videoTitle% %videoTitle%"
          = collapseTitle v.title ++ " " ++ collapseTitle v.title) := by
  intro v t
  refine ⟨?_, ?_, ?_⟩
  · intro h
    simp only [noRecognizedPlaceholder, placeholderNames, List.all_cons, List.all_nil,
      Bool.and_eq_true, Bool.not_eq_true'] at h
    obtain ⟨h1, h2, h3, h4, h5, h6, h7, h8, -⟩ := h
    simp only [formatString, formatLookup, List.foldl]
    rw [replaceAll_not_occurs _ _ _ h1, replaceAll_not_occurs _ _ _ h2,
      replaceAll_not_occurs _ _ _ h3, replaceAll_not_occurs _ _ _ h4,
      replaceAll_not_occurs _ _ _ h5, replaceAll_not_occurs _ _ _ h6,
      replaceAll_not_occurs _ _ _ h7, replaceAll_not_occurs _ _ _ h8]
  · intro hall
    simp only [formatLookup, List.all_cons, List.all_nil, Bool.and_eq_true] at hall
    obtain ⟨d1, d2, d3, d4, d5, d6, d7, d8, -⟩ := hall
    simp only [formatString, formatStringSubstituted, formatLookup, List.foldl]
    rw [replaceAll_eq_substPlaceholder _ _ _ d1, replaceAll_eq_substPlaceholder _ _ _ d2,
      replaceAll_eq_substPlaceholder _ _ _ d3, replaceAll_eq_substPlaceholder _ _ _ d4,
      replaceAll_eq_substPlaceholder _ _ _ d5, replaceAll_eq_substPlaceholder _ _ _ d6,
      replaceAll_eq_substPlaceholder _ _ _ d7, replaceAll_eq_substPlaceholder _ _ _ d8]
  · intro hdollar
    constructor
    · simp only [formatString, formatLookup, List.foldl]
      rw [replaceAll_not_occurs "%channelTitle%" "%videoTitle%" _ (by decide),
        replaceAll_not_occurs "%year%" "%videoTitle%" _ (by decide),
        replaceAll_not_occurs "%month%" "%videoTitle%" _ (by decide),
        replaceAll_not_occurs "%day%" "%videoTitle%" _ (by decide),
        replaceAll_not_occurs "%hour%" "%videoTitle%" _ (by decide),
        replaceAll_not_occurs "%minute%" "%videoTitle%" _ (by decide),
        replaceAll_not_occurs "%second%" "%videoTitle%" _ (by decide),
        replaceAll_eq_substPlaceholder "%videoTitle%" "%videoTitle%" _ hdollar]
      unfold substPlaceholder
      rw [show splitOnPat "%videoTitle%".data "%videoTitle%".data = [[], []] from by decide]
      simp [joinWith]
    · simp only [formatString, formatLookup, List.foldl]
      rw [replaceAll_not_occurs "%channelTitle%" "%videoTitle% %videoTitle%" _ (by decide),
        replaceAll_not_occurs "%year%" "%videoTitle% %videoTitle%" _ (by decide),
        replaceAll_not_occurs "%month%" "%videoTitle% %videoTitle%" _ (by decide),
        replaceAll_not_occurs "%day%" "%videoTitle% %videoTitle%" _ (by decide),
        replaceAll_not_occurs "%hour%" "%videoTitle% %videoTitle%" _ (by decide),
        replaceAll_not_occurs "%minute%" "%videoTitle% %videoTitle%" _ (by decide),
        replaceAll_not_occurs "%second%" "%videoTitle% %videoTitle%" _ (by decide),
        replaceAll_eq_substPlaceholder "%videoTitle% %videoTitle%" "%videoTitle%" _ hdollar]
      unfold substPlaceholder
      rw [show splitOnPat "%videoTitle%".data "%videoTitle% %videoTitle%".data
            = [[], [' '], []] from by decide]
      rw [String.congr_append (collapseTitle v.title ++ " ") (collapseTitle v.title),
        String.congr_append (collapseTitle v.title) " "]
      have hsp : (" " : String).data = [' '] := rfl
      simp [joinWith, hsp, List.append_assoc]

/-- Witness for C6 (amended): the sample video has `$`-free channel title
`C`, title `T` and numeric fields, so an unknown-token template survives,
a mixed template equals the specification substitution, and `%videoTitle%`
yields the collapsed title. -/
theorem formatString_semantics_witness :
    formatString (mkVideo ["a"] none) "a%foo%b" = "a%foo%b" ∧
    formatString (mkVideo ["a"] none) "%channelTitle%/%videoTitle%"
      = formatStringSubstituted (mkVideo ["a"] none) "%channelTitle%/%videoTitle%" ∧
    formatString (mkVideo ["a"] none) "%videoTitle%" = collapseTitle "T" :=
  ⟨(formatString_semantics (mkVideo ["a"] none) "a%foo%b").1 (by decide),
   (formatString_semantics (mkVideo ["a"] none) "%channelTitle%/%videoTitle%").2.1 (by decide),
   ((formatString_semantics (mkVideo ["a"] none) "x").2.2 (by decide)).1⟩

/-- Decimal digit accumulator for numeric quality labels. -/
def parseDecimalGo : Nat → List Char → Option Nat
  | acc, [] => some acc
  | acc, c :: rest =>
    if c.isDigit then parseDecimalGo (acc * 10 + (c.toNat - '0'.toNat)) rest else none

/-- JS unary-plus coercion of a quality label restricted to optionally signed
decimal integers: `none` models NaN (e.g. `+"4k"`), the empty string gives 0
as in JS.  The comparator semantics below is faithful for the all-numeric
label lists the delivery API produces. -/
def jsNum (s : String) : Option Int :=
  match s.data with
  | [] => some 0
  | '-' :: rest => if rest.isEmpty then none else (parseDecimalGo 0 rest).map fun n => -(n : Int)
  | cs => (parseDecimalGo 0 cs).map fun n => (n : Int)

/-- Sort key of a label; a NaN comparator result makes the JS sort treat the
pair as equal, modelled by key 0. -/
def qualityKey (s : String) : Int := (jsNum s).getD 0

/-- The comparator `(a, b) => +b - +a` as the relation "`a` may be placed
before `b`": descending numeric order. -/
def qualityGe (a b : String) : Prop := qualityKey b ≤ qualityKey a

instance : DecidableRel qualityGe := fun a b => Int.decLe (qualityKey b) (qualityKey a)

instance : IsTotal String qualityGe := ⟨fun a b => le_total (qualityKey b) (qualityKey a)⟩

instance : IsTrans String qualityGe := ⟨fun _ _ _ hab hbc => le_trans hbc hab⟩

/-- `availableQualities`: the quality names stably sorted descending by
numeric value (`.map(q => q.name).sort((a, b) => +b - +a)`). -/
def availableQualities (names : List String) : List String :=
  List.insertionSort qualityGe names

/-- The selection `availableQualities.includes(quality) ? quality :
availableQualities[0]`; the default `""` is only reachable when the label
list is empty (where JS would yield `undefined`). -/
def downloadQuality (quality : String) (names : List String) : String :=
  if (availableQualities names).contains quality then quality
  else (availableQualities names).headD ""

/-- C7: for a non-empty list of numeric quality labels, the selected quality
is the requested one when present, and otherwise an available label of
maximal numeric value. -/
theorem downloadQuality_requested_or_highest :
    ∀ (q : String) (names : List String), names ≠ [] →
      (∀ l ∈ names, (jsNum l).isSome) →
      (q ∈ names → downloadQuality q names = q) ∧
      (q ∉ names → downloadQuality q names ∈ names ∧
        ∀ l ∈ names, qualityKey l ≤ qualityKey (downloadQuality q names)) := by
  intro q names hne _hnum
  have hmemiff : ∀ x : String, x ∈ availableQualities names ↔ x ∈ names := by
    intro x
    exact List.mem_insertionSort qualityGe
  constructor
  · intro hq
    have hc : (availableQualities names).contains q = true := by
      exact List.elem_iff.mpr ((hmemiff q).mpr hq)
    unfold downloadQuality
    rw [hc]
    simp
  · intro hq
    have hc : (availableQualities names).contains q = false := by
      rw [Bool.eq_false_iff]
      intro hcon
      exact hq ((hmemiff q).mp (List.elem_iff.mp hcon))
    have hsorted : List.Sorted qualityGe (availableQualities names) := by
      unfold availableQualities
      exact List.sorted_insertionSort qualityGe names
    have hanil : availableQualities names ≠ [] := by
      intro h0
      have hl := List.length_insertionSort qualityGe names
      unfold availableQualities at h0
      rw [h0] at hl
      exact hne (List.length_eq_zero.mp hl.symm)
    obtain ⟨h, t, haq⟩ := List.exists_cons_of_ne_nil hanil
    rw [haq] at hsorted
    have hsel : downloadQuality q names = h := by
      unfold downloadQuality
      rw [hc, haq]
      simp
    refine ⟨?_, ?_⟩
    · rw [hsel]
      exact (hmemiff h).mp (haq ▸ List.mem_cons_self h t)
    · intro l hl
      rw [hsel]
      rcases List.mem_cons.mp (haq ▸ (hmemiff l).mpr hl) with h1 | h2
      · rw [h1]
      · exact List.rel_of_sorted_cons hsorted l h2

/-- Witness for C7: the spec's scenario 5 labels; requesting `"720"` selects
`"720"`, requesting the absent `"4k"` selects the highest label `"1080"`. -/
theorem downloadQuality_requested_or_highest_witness :
    downloadQuality "720" ["1080", "720", "480"] = "720" ∧
    (downloadQuality "4k" ["1080", "720", "480"] ∈ (["1080", "720", "480"] : List String) ∧
      ∀ l ∈ (["1080", "720", "480"] : List String),
        qualityKey l ≤ qualityKey (downloadQuality "4k" ["1080", "720", "480"])) ∧
    downloadQuality "4k" ["1080", "720", "480"] = "1080" :=
  ⟨(downloadQuality_requested_or_highest "720" _ (by decide) (by decide)).1 (by decide),
   (downloadQuality_requested_or_highest "4k" _ (by decide) (by decide)).2 (by decide),
   by decide⟩

/-- One candidate CDN edge host from a delivery ticket. -/
structure Edge where
  hostname : String
deriving DecidableEq

/-- A delivery ticket as returned by `fApi.cdn.delivery`: `edges` is `none`
when the response carries no `edges` field (`undefined` in JS), `some []`
when it carries an empty list. -/
structure DeliveryTicket where
  edges : Option (List Edge)
  uriTemplate : String
  token : String
  qualityNames : List String
deriving DecidableEq

/-- An observable side effect of `download`, in program order. -/
inductive Effect where
  | mkdirRecursive (path : String)
  | writeArtwork (path : String)
  | writeNfo (path : String)
  | deliveryRequest (attachmentIndex : Nat)
  | startTransfer (url : String) (path : String)
deriving DecidableEq

/-- Result of `download`: the effects performed before returning or
throwing, and the thrown error message, if any. -/
structure DownloadResult where
  effects : List Effect
  error : Option String
deriving DecidableEq

/-- The `AlreadyDownloaded` error text thrown at the top of `download`. -/
def alreadyDownloadedMsg (v : Video) : String :=
  "Attempting to download \"" ++ v.title ++ "\" video already downloaded!"

/-- The error text of the `cdnInfo.edges === undefined` check. -/
def noEdgesMsg : String := "No edges found for video"

/-- The runtime error raised when the randomly selected edge is `undefined`
(an empty edge list passes the `=== undefined` check and indexing yields
`undefined`, so reading `.hostname` throws a TypeError). -/
def undefinedEdgeMsg : String :=
  "TypeError: Cannot read properties of undefined (reading hostname)"

/-- URL construction: `https://` + host + URI template with the first
`{qualityLevels}` and `{token}` occurrences substituted (plain-string
`.replace`, first occurrence only). -/
def buildDownloadUrl (host : String) (ticket : DeliveryTicket) (q : String) : String :=
  "https://" ++ host ++
    replaceFirst (replaceFirst ticket.uriTemplate "{qualityLevels}" q) "{token}" ticket.token

/-- The per-attachment loop of `download`: request a delivery ticket, check
the `edges` field (only `undefined` is caught), pick the random edge, apply
the operator hostname override, and start the `.partial` transfer; `rand i`
models `Math.floor(Math.random() * edges.length)` for part `i`.  The first
component collects the effects performed, the second the error that stopped
the loop, if any. -/
def downloadParts (v : Video) (s : Settings) (tickets : Nat → DeliveryTicket)
    (rand : Nat → Nat) (quality : String) : Nat → List String → List Effect × Option String
  | _, [] => ([], none)
  | i, _ :: rest =>
    let ticket := tickets i
    match ticket.edges with
    | none => ([Effect.deliveryRequest i], some noEdgesMsg)
    | some edges =>
      let idx := if edges.length = 0 then 0 else rand i % edges.length
      match edges.get? idx with
      | none => ([Effect.deliveryRequest i], some undefinedEdgeMsg)
      | some edge =>
        let host := if s.downloadEdge ≠ "" then s.downloadEdge else edge.hostname
        let url := buildDownloadUrl host ticket (downloadQuality quality ticket.qualityNames)
        let restR := downloadParts v s tickets rand quality (i + 1) rest
        (Effect.deliveryRequest i ::
          Effect.startTransfer url (partFilePath v s i "partial") :: restR.1, restR.2)

/-- Effects preceding the attachment loop: recursive folder creation, then
the optional artwork and NFO writes. -/
def preEffects (v : Video) (s : Settings) : List Effect :=
  Effect.mkdirRecursive (folderPath v s) ::
    ((if s.downloadArtwork && v.thumbnail.isSome then
        [Effect.writeArtwork (filePath v s ++ s.artworkSuffix ++ ".png")] else []) ++
     (if s.saveNfo then [Effect.writeNfo (filePath v s ++ ".nfo")] else []))

/-- `download(quality)`: throws `AlreadyDownloaded` up front with no side
effects; otherwise performs the preparatory effects and the per-part loop.
The expected-size progress callback registration is not modelled. -/
def download (v : Video) (s : Settings) (st : FileSystem) (tickets : Nat → DeliveryTicket)
    (rand : Nat → Nat) (quality : String) : DownloadResult :=
  if isDownloaded v s st then { effects := [], error := some (alreadyDownloadedMsg v) }
  else
    let parts := downloadParts v s tickets rand quality 0 v.videoAttachments
    { effects := preEffects v s ++ parts.1, error := parts.2 }

/-- A filesystem holding only a 7-byte final `.mp4` for the sample video. -/
def fsMp4 : FileSystem := fun p => if p = "/video.mp4" then some 7 else none

/-- C9: invoking `download` while `isDownloaded()` holds throws
`AlreadyDownloaded` and performs no effect: no folder creation, no artwork
or NFO write, no delivery request, no transfer. -/
theorem download_already_downloaded_no_effects :
    ∀ (v : Video) (s : Settings) (st : FileSystem) (tickets : Nat → DeliveryTicket)
      (rand : Nat → Nat) (quality : String),
      isDownloaded v s st = true →
      download v s st tickets rand quality
        = { effects := [], error := some (alreadyDownloadedMsg v) } := by
  intro v s st tickets rand quality h
  unfold download
  rw [h]
  simp

/-- Witness for C9: a muxed video (existing `.mp4`, flag set). -/
theorem download_already_downloaded_no_effects_witness :
    download (mkVideo ["a"] none) exSettingsAll fsMp4 (fun _ => ⟨none, "", "", []⟩) (fun _ => 0)
        "1080"
      = { effects := [], error := some (alreadyDownloadedMsg (mkVideo ["a"] none)) } :=
  download_already_downloaded_no_effects _ _ _ _ _ _ (by decide)

/-- C8 counterexample: a ticket whose edge list is present but empty is NOT
rejected with `NoEdgesAvailable`; edge selection proceeds on the empty list
and dereferencing the `undefined` edge raises a TypeError instead. -/
theorem download_empty_edges_counterexample :
    (download (mkVideo ["a"] none) exSettings fsEmpty
        (fun _ => ⟨some [], "/t", "tok", ["1080"]⟩) (fun _ => 0) "1080").error
      = some undefinedEdgeMsg ∧
    (download (mkVideo ["a"] none) exSettings fsEmpty
        (fun _ => ⟨some [], "/t", "tok", ["1080"]⟩) (fun _ => 0) "1080").error
      ≠ some noEdgesMsg := by
  decide

/-- C8 (amended): the `NoEdgesAvailable` failure fires exactly when the
ticket's edge field is absent (`undefined`); an empty edge list passes the
check, no transfer is started for it, and the attachment instead fails with
a TypeError while selecting the edge. -/
theorem download_edge_check_characterization :
    ∀ (v : Video) (s : Settings) (st : FileSystem) (tickets : Nat → DeliveryTicket)
      (rand : Nat → Nat) (q : String) (a : String),
      v.videoAttachments = [a] →
      isDownloaded v s st = false →
      ((tickets 0).edges = none →
        download v s st tickets rand q
          = { effects := preEffects v s ++ [Effect.deliveryRequest 0],
              error := some noEdgesMsg }) ∧
      ((tickets 0).edges = some [] →
        download v s st tickets rand q
          = { effects := preEffects v s ++ [Effect.deliveryRequest 0],
              error := some undefinedEdgeMsg }) := by
  intro v s st tickets rand q a hatt hnd
  constructor <;> intro hedge <;>
    · unfold download
      rw [hnd, hatt]
      unfold downloadParts
      simp [hedge]

/-- Witness for C8 (amended): a ticket with the edge field absent. -/
theorem download_edge_check_characterization_witness :
    download (mkVideo ["a"] none) exSettings fsEmpty (fun _ => ⟨none, "/t", "tok", ["1080"]⟩)
        (fun _ => 0) "1080"
      = { effects := preEffects (mkVideo ["a"] none) exSettings ++ [Effect.deliveryRequest 0],
          error := some noEdgesMsg } :=
  (download_edge_check_characterization _ _ _ _ _ _ "a" rfl (by decide)).1 rfl

/-- JS truthiness of the Promise object returned by an async call: an object
is always truthy, whatever Bool it would resolve to. -/
def promiseTruthy (_resolved : Bool) : Bool := true

/-- Outcome of the finalize guard stage: whether `NotDownloaded` was thrown
and how many per-part transcoder processes get spawned. -/
structure MuxOutcome where
  threwNotDownloaded : Bool
  transcoderInvocations : Nat
deriving DecidableEq

/-- `muxffmpegMetadata` up to its transcoder stage: the source tests
`!this.isDownloaded()` WITHOUT awaiting, i.e. it negates the truthiness of
the Promise object itself, so the `NotDownloaded` throw is unreachable and
ffmpeg is spawned once per attachment part regardless of download state. -/
def muxffmpegMetadata (v : Video) (s : Settings) (st : FileSystem) : MuxOutcome :=
  if !promiseTruthy (isDownloaded v s st) then
    { threwNotDownloaded := true, transcoderInvocations := 0 }
  else
    { threwNotDownloaded := false, transcoderInvocations := v.videoAttachments.length }

/-- C3: the `NotDownloaded` guard of `muxffmpegMetadata` never fires — in
particular on a video that is NOT downloaded (no files, no `expectedSize`)
the finalize step still spawns the transcoder for its attachment part,
contradicting the claimed precondition failure. -/
theorem muxffmpegMetadata_guard_never_fires :
    (∀ (v : Video) (s : Settings) (st : FileSystem),
      (muxffmpegMetadata v s st).threwNotDownloaded = false) ∧
    isDownloaded (mkVideo ["a"] none) exSettings fsEmpty = false ∧
    (muxffmpegMetadata (mkVideo ["a"] none) exSettings fsEmpty).threwNotDownloaded = false ∧
    (muxffmpegMetadata (mkVideo ["a"] none) exSettings fsEmpty).transcoderInvocations = 1 :=
  ⟨fun _ _ _ => rfl, by decide, by decide, by decide⟩

/-- `saveLoginDetails` from `prompts.ts`: the toggle answer (`none` when the
prompt is cancelled, i.e. `undefined`, which is falsy) OR-ed with the
default. -/
def saveLoginDetails (answer : Option Bool) (initial : Bool) : Bool :=
  answer.getD false || initial

/-- `findClosestServerNow` from `prompts.ts`: same shape as
`saveLoginDetails` with its own prompt wording. -/
def findClosestServerNow (answer : Option Bool) (initial : Bool) : Bool :=
  answer.getD false || initial

/-- C10: both prompts return the OR of the user's answer with the default,
so a true default makes the result true whatever the user answers. -/
theorem prompts_or_default :
    ∀ (answer : Option Bool) (initial : Bool),
      (saveLoginDetails answer initial = true ↔ (answer = some true ∨ initial = true)) ∧
      (findClosestServerNow answer initial = true ↔ (answer = some true ∨ initial = true)) ∧
      (initial = true →
        saveLoginDetails answer initial = true ∧ findClosestServerNow answer initial = true) := by
  intro answer initial
  cases answer with
  | none => cases initial <;> simp [saveLoginDetails, findClosestServerNow]
  | some b => cases b <;> cases initial <;> simp [saveLoginDetails, findClosestServerNow]

/-- Witness for C10: answering "No" with a true default still yields true. -/
theorem prompts_or_default_witness :
    saveLoginDetails (some false) true = true ∧ findClosestServerNow (some false) true = true :=
  (prompts_or_default (some false) true).2.2 rfl
